import Mathlib

/-!
# skyperole: window role tagging for Skype windows

A shallow embedding of `skyperole.cpp`.  A `std::string` is the list of its
bytes, the X server is seen through the replies `XGetWindowProperty` gives and
the `XChangeProperty` requests it receives, and the globals of the program
(`display`, `verbose`, the stream `std::cerr`) are fields of one state record
that every function takes and returns.
-/

namespace SkypeRole

/-! ## Data model -/

/-- Contents of a `std::string`: its bytes (`char` values 0..255), in order. -/
abbrev Bytes := List Nat

/-- The bytes of a string literal of the source file, which is UTF-8 encoded
(`™` is the three bytes `E2 84 A2`). -/
def utf8 (s : String) : Bytes :=
  (s.data.flatMap String.utf8EncodeChar).map UInt8.toNat

/-- An X11 `Window` identifier. -/
abbrev Window := Nat

/-- X11 atoms, told apart by the name they intern; `initialize` interns
`"WM_CLASS"`, `"_NET_WM_NAME"` and `"WM_WINDOW_ROLE"`, and `XA_STRING` is
predefined. -/
inductive Atom where
  | wmClass
  | netWmName
  | wmWindowRole
  | xaString
  | other (id : Nat)
  deriving DecidableEq, Repr

/-- Class of windows, belonging to Skype. -/
def SKYPE_WINDOW_CLASS : Bytes := utf8 "Skype"

/-- Number of window identification records. -/
def SKYPE_WINDOW_TYPE_COUNT : Nat := 8

/-- Skype window identification information (name substring, window role). -/
def SKYPE_WINDOW_TYPES : List (Bytes × Bytes) :=
  [ (utf8 "Add a Skype Contact",         utf8 "skype-add-contact"),
    (utf8 "Add to Chat",                 utf8 "skype-add-to-chat"),
    (utf8 "Skype™ Chat",                 utf8 "skype-chat"),
    (utf8 "Start conference call",       utf8 "skype-conf-call"),
    (utf8 "Skype™ (Beta)",               utf8 "skype-main"),
    (utf8 "Options",                     utf8 "skype-options"),
    (utf8 "Profile for",                 utf8 "skype-profile"),
    (utf8 "Skype™ 2.2 (Beta) for Linux", utf8 "skype-sign-in") ]

/-- WM_CLASS atom. -/
def WM_CLASS_ATOM : Atom := Atom.wmClass

/-- The atom of _NET_WM_NAME. -/
def WM_NAME_ATOM : Atom := Atom.netWmName

/-- WM_WINDOW_ROLE atom. -/
def WM_WINDOW_ROLE_ATOM : Atom := Atom.wmWindowRole

/-- Xlib's `Success` status. -/
def Success : Nat := 0

/-- What a call `XGetWindowProperty(display, window, property, 0, INFINITY,
False, AnyPropertyType, ...)` hands back: the returned status, `itemCount`
(`nitems_return`) and the buffer `data` (`prop_return`), which Xlib ends with
one extra NUL byte after the property's own bytes. -/
structure PropertyReply where
  status : Nat
  itemCount : Nat
  data : Bytes
  deriving DecidableEq, Repr

/-- One `XChangeProperty(display, window, property, type, format,
PropModeReplace, data, nelements)` request. -/
structure ChangeRequest where
  window : Window
  property : Atom
  type : Atom
  format : Nat
  data : Bytes
  nelements : Nat
  deriving DecidableEq, Repr

/-- The program's view of the world: the property store of the X server
behind `display` (as the reply a property query gets), the log of the property
writes sent so far, the lines written to `std::cerr` (each records the window
of one "Recognized Skype window ..., could not identify it further." line), and
the global `verbose`. -/
structure XState where
  properties : Window → Atom → PropertyReply
  requests : List ChangeRequest
  cerr : List Window
  verbose : Bool

/-- The reply of the server to a property query. -/
def XGetWindowProperty (st : XState) (window : Window) (property : Atom) : PropertyReply :=
  st.properties window property

/-- The effect of `XChangeProperty` in mode `PropModeReplace` with format 8:
the request is logged, and the property now holds exactly the `nelements`
bytes given, whatever it held before. -/
def XChangeProperty (st : XState) (window : Window) (property type : Atom) (format : Nat)
    (data : Bytes) (nelements : Nat) : XState :=
  { st with
    properties := fun w a =>
      if w = window ∧ a = property then
        { status := Success, itemCount := nelements, data := data.take nelements ++ [0] }
      else st.properties w a
    requests := st.requests ++
      [{ window := window, property := property, type := type, format := format,
         data := data.take nelements, nelements := nelements }] }

/-! ## Utility functions -/

/-- The algorithm `std::search(first, last, s_first, s_last)` on the range
`hay` for the sequence `needle`, as the offset of the returned iterator from
`first`: the start of the first occurrence of `needle`, and `hay.length`
(the iterator `last`) when there is none.  An empty `needle` is found at
offset 0. -/
def search (needle : Bytes) : Bytes → Nat
  | [] => 0
  | h :: t => if needle.isPrefixOf (h :: t) then 0 else 1 + search needle t

/-- Checks whether string str1 is contained within str2. -/
def isSubstring (str1 str2 : Bytes) : Bool :=
  search str1 str2 != str2.length

/-- The `std::string` built from the C string at `data + offset`: the bytes
up to, and without, the next NUL. -/
def cString (data : Bytes) (offset : Nat) : Bytes :=
  (data.drop offset).takeWhile (fun c => c != 0)

/-- The strings `getStringProperty` collects from the buffer `data` of
`itemCount > 0` items: the C string at `data`, then, for `i` from 0 up to
`itemCount - 2`, the C string at `data + i + 1` whenever `data[i]` is NUL. -/
def getStringProperty.collect (itemCount : Nat) (data : Bytes) : List Bytes :=
  (List.range (itemCount - 1)).foldl
    (fun propertyStrings i =>
      if data.getD i 0 = 0 then propertyStrings ++ [cString data (i + 1)]
      else propertyStrings)
    [cString data 0]

/-- Returns the value of the given property of the given window as strings. -/
def getStringProperty (st : XState) (window : Window) (property : Atom) : List Bytes :=
  let reply := XGetWindowProperty st window property
  if reply.status = Success then
    if reply.itemCount > 0 then getStringProperty.collect reply.itemCount reply.data
    else []
  else []

/-- Sets the given property of the given window to the specified string value. -/
def setStringProperty (st : XState) (window : Window) (property : Atom) (value : Bytes) :
    XState :=
  XChangeProperty st window property Atom.xaString 8 value value.length

/-! ## Window role setter -/

/-- The loop of `isSkypeWindow` over the class names from index `i` on. -/
def isSkypeWindow.loop : List Bytes → Bool
  | [] => false
  | name :: rest => if name = SKYPE_WINDOW_CLASS then true else isSkypeWindow.loop rest

/-- Check if the given window is a Skype window. -/
def isSkypeWindow (st : XState) (window : Window) : Bool :=
  let classNames := getStringProperty st window WM_CLASS_ATOM
  isSkypeWindow.loop classNames

/-- The inner loop of `setWindowRole` over the records `j, j+1, ...` left of
the table, for one window name: the role of the first record whose substring
is in the name, where the loop sets the property and returns. -/
def setWindowRole.typeLoop (windowName : Bytes) : List (Bytes × Bytes) → Option Bytes
  | [] => none
  | type :: rest =>
    if isSubstring type.1 windowName then some type.2
    else setWindowRole.typeLoop windowName rest

/-- The outer loop of `setWindowRole` over the window names left: the role
at which the nested loops return, `none` when both run to their end. -/
def setWindowRole.nameLoop : List Bytes → Option Bytes
  | [] => none
  | windowName :: rest =>
    match setWindowRole.typeLoop windowName SKYPE_WINDOW_TYPES with
    | some role => some role
    | none => setWindowRole.nameLoop rest

/-- Set the window role of the given window, if it is recognized. -/
def setWindowRole (st : XState) (window : Window) : XState :=
  if !isSkypeWindow st window then st
  else
    let windowNames := getStringProperty st window WM_NAME_ATOM
    match setWindowRole.nameLoop windowNames with
    | some role => setStringProperty st window WM_WINDOW_ROLE_ATOM role
    | none =>
      if st.verbose then { st with cerr := st.cerr ++ [window] }
      else st

/-- The property writes an invocation sent: the requests logged in `st1`
after those already in `st0`. -/
def XState.sentSince (st0 st1 : XState) : List ChangeRequest :=
  st1.requests.drop st0.requests.length

/-- The request `setStringProperty(window, WM_WINDOW_ROLE_ATOM, role)` sends. -/
def roleRequest (window : Window) (role : Bytes) : ChangeRequest :=
  { window := window, property := WM_WINDOW_ROLE_ATOM, type := Atom.xaString, format := 8,
    data := role, nelements := role.length }

/-- A server whose window `window` has the given `WM_CLASS` and `_NET_WM_NAME`
bytes (format 8) and no other property, with nothing sent or printed yet. -/
def exampleState (wmClass wmName : Bytes) (verbose : Bool) : XState :=
  { properties := fun _ a =>
      if a = WM_CLASS_ATOM then
        { status := Success, itemCount := wmClass.length, data := wmClass ++ [0] }
      else if a = WM_NAME_ATOM then
        { status := Success, itemCount := wmName.length, data := wmName ++ [0] }
      else { status := Success, itemCount := 0, data := [] }
    requests := []
    cerr := []
    verbose := verbose }

/-! ## Definitions for the statements -/

/-- Containment of `str1` within `str2` by offsets: there is an offset `k`
with `k + |str1| ≤ |str2|` at which `str2` reads `str1`. -/
def containedIn (str1 str2 : Bytes) : Prop :=
  ∃ k, k + str1.length ≤ str2.length ∧ (str2.drop k).take str1.length = str1

/-- The pieces of a property value: its bytes split at the NUL bytes, without
the empty piece that follows a final NUL. -/
def nulSeparated (bytes : Bytes) : List Bytes :=
  if bytes.getLast? = some 0 then (bytes.splitOn 0).dropLast else bytes.splitOn 0

/-- The strings `getStringProperty` collects from a property value of
`bytes.length` items of format 8, which Xlib hands over with a NUL after it. -/
def collected (bytes : Bytes) : List Bytes :=
  getStringProperty.collect bytes.length (bytes ++ [0])

/-- The invocation `setWindowRole(window)` from `st` sends exactly one
property write, of `role` to the window's role property, which then reads back
as the one string `role`. -/
def writesRole (st : XState) (window : Window) (role : Bytes) : Prop :=
  st.sentSince (setWindowRole st window) = [roleRequest window role] ∧
  getStringProperty (setWindowRole st window) window WM_WINDOW_ROLE_ATOM = [role]

/-- A `WM_CLASS` value as Skype sets it: instance name and class name, each
ended by a NUL. -/
def skypeClassProperty : Bytes := utf8 "skype" ++ 0 :: (utf8 "Skype" ++ [0])

/-- A server that answers every property query with `reply`, with nothing
sent or printed yet. -/
def replyState (reply : PropertyReply) : XState :=
  { properties := fun _ _ => reply
    requests := []
    cerr := []
    verbose := false }

/-- The value of a format-32 property holding the three items 0, 1, 2, as
Xlib hands it over where `long` has 8 bytes, least significant byte first:
24 bytes for an item count of 3. -/
def threeLongs : Bytes :=
  List.replicate 8 0 ++ (1 :: List.replicate 7 0) ++ (2 :: List.replicate 7 0)

/-- The reply to a query of that property: success, an item count of 3, and
the 24 bytes followed by the NUL Xlib adds. -/
def threeLongsReply : PropertyReply :=
  { status := Success, itemCount := 3, data := threeLongs ++ [0] }

/-! ## Substring search -/

/-- The bytes of the literal "Skype™": `™` is `E2 84 A2`, as in the source file. -/
theorem utf8_skype_trademark :
    utf8 "Skype™" = [0x53, 0x6b, 0x79, 0x70, 0x65, 0xe2, 0x84, 0xa2] := by decide

theorem search_le_length (needle : Bytes) (hay : Bytes) : search needle hay ≤ hay.length := by
  induction hay with
  | nil => simp [search]
  | cons h t ih =>
    unfold search
    split
    · exact Nat.zero_le _
    · simp only [List.length_cons]; omega

/-- The search returns the iterator `last` exactly when the range is empty or
holds no occurrence of the sequence. -/
theorem search_eq_length_iff (needle : Bytes) (hay : Bytes) :
    search needle hay = hay.length ↔ hay = [] ∨ ¬ needle <:+: hay := by
  induction hay with
  | nil => simp [search]
  | cons h t ih =>
    unfold search
    by_cases hp : needle.isPrefixOf (h :: t) = true
    · have hp' : needle <+: h :: t := List.isPrefixOf_iff_prefix.mp hp
      simp [hp, hp'.isInfix]
    · have hp' : ¬ needle <+: h :: t := fun c => hp (List.isPrefixOf_iff_prefix.mpr c)
      have hne : needle ≠ [] := by
        rintro rfl
        exact hp' (List.nil_prefix)
      simp only [hp, Bool.false_eq_true, if_false, List.length_cons, reduceCtorEq, false_or,
        List.infix_cons_iff, not_or]
      rw [Nat.add_comm, Nat.add_right_cancel_iff, ih]
      constructor
      · rintro (rfl | h2)
        · exact ⟨hp', fun c => hne (List.infix_nil.mp c)⟩
        · exact ⟨hp', h2⟩
      · rintro ⟨_, h2⟩
        exact Or.inr h2

/-- What `isSubstring` computes: an occurrence of `str1` in a nonempty `str2`. -/
theorem isSubstring_iff (str1 str2 : Bytes) :
    isSubstring str1 str2 = true ↔ str2 ≠ [] ∧ str1 <:+: str2 := by
  unfold isSubstring
  rw [bne_iff_ne, Ne, search_eq_length_iff]
  tauto

/-- For a nonempty `str1`, `isSubstring` decides containment. -/
theorem isSubstring_iff_isInfix {str1 : Bytes} (h : str1 ≠ []) (str2 : Bytes) :
    isSubstring str1 str2 = true ↔ str1 <:+: str2 := by
  rw [isSubstring_iff]
  constructor
  · exact fun c => c.2
  · intro c
    refine ⟨?_, c⟩
    rintro rfl
    exact h (List.infix_nil.mp c)


/-! ## Reading a string list property -/

theorem containedIn_iff_isInfix (str1 str2 : Bytes) : containedIn str1 str2 ↔ str1 <:+: str2 := by
  constructor
  · rintro ⟨k, _, hk⟩
    refine ⟨str2.take k, (str2.drop k).drop str1.length, ?_⟩
    have h1 : str1 ++ (str2.drop k).drop str1.length = str2.drop k := by
      conv_lhs => rw [← hk, List.length_take]
      rw [Nat.min_eq_left (by rw [List.length_drop]; omega), List.take_append_drop]
    rw [List.append_assoc, h1, List.take_append_drop]
  · rintro ⟨a, b, rfl⟩
    refine ⟨a.length, by simp, ?_⟩
    simp

theorem foldl_push_eq_filterMap {α β : Type} (c : α → Bool) (g : α → β) (l : List α)
    (init : List β) :
    l.foldl (fun acc i => if c i then acc ++ [g i] else acc) init
      = init ++ l.filterMap (fun i => if c i then some (g i) else none) := by
  induction l generalizing init with
  | nil => simp
  | cons a l ih =>
    simp only [List.foldl_cons, List.filterMap_cons]
    by_cases h : c a = true
    · simp [h, ih]
    · simp [h, ih]

theorem collected_eq (bytes : Bytes) :
    collected bytes = cString (bytes ++ [0]) 0 ::
      (List.range (bytes.length - 1)).filterMap
        (fun i => if (bytes ++ [0]).getD i 0 = 0 then some (cString (bytes ++ [0]) (i + 1))
          else none) := by
  have h := foldl_push_eq_filterMap (fun i => decide ((bytes ++ [0]).getD i 0 = 0))
    (fun i => cString (bytes ++ [0]) (i + 1)) (List.range (bytes.length - 1))
    [cString (bytes ++ [0]) 0]
  simp only [decide_eq_true_eq, List.singleton_append] at h
  exact h

theorem collected_singleton (b : Nat) : collected [b] = if b = 0 then [[]] else [[b]] := by
  by_cases h : b = 0
  · subst h; rfl
  · simp [collected, getStringProperty.collect, cString, h]

theorem collected_cons (b : Nat) (r : Nat) (rs : Bytes) :
    collected (b :: r :: rs) =
      if b = 0 then [] :: collected (r :: rs)
      else (collected (r :: rs)).modifyHead (fun p => b :: p) := by
  rw [collected_eq, collected_eq]
  simp only [List.length_cons, Nat.add_sub_cancel]
  rw [List.range_succ_eq_map]
  by_cases h : b = 0
  · subst h
    simp [cString, List.filterMap_map, Function.comp_def]
  · simp [cString, List.filterMap_map, Function.comp_def, h, List.modifyHead]


theorem splitOn_zero_cons (b : Nat) (xs : Bytes) :
    (b :: xs).splitOn 0 =
      if b = 0 then [] :: xs.splitOn 0 else (xs.splitOn 0).modifyHead (fun p => b :: p) := by
  unfold List.splitOn
  rw [List.splitOnP_cons]
  by_cases h : b = 0 <;> simp [h]

theorem dropLast_modifyHead {α : Type} (f : α → α) (l : List α) :
    (l.modifyHead f).dropLast = l.dropLast.modifyHead f := by
  match l with
  | [] => rfl
  | [_] => rfl
  | _ :: _ :: _ => rfl

theorem nulSeparated_singleton (b : Nat) :
    nulSeparated [b] = if b = 0 then [[]] else [[b]] := by
  by_cases h : b = 0
  · subst h; rfl
  · simp [nulSeparated, h, splitOn_zero_cons, List.modifyHead]

theorem nulSeparated_cons (b : Nat) (r : Nat) (rs : Bytes) :
    nulSeparated (b :: r :: rs) =
      if b = 0 then [] :: nulSeparated (r :: rs)
      else (nulSeparated (r :: rs)).modifyHead (fun p => b :: p) := by
  have hne : (r :: rs).splitOn 0 ≠ [] := List.splitOnP_ne_nil _ _
  have hlast : (b :: r :: rs).getLast? = (r :: rs).getLast? := by
    simp [List.getLast?_cons_cons]
  unfold nulSeparated
  rw [hlast, splitOn_zero_cons b (r :: rs)]
  by_cases hl : (r :: rs).getLast? = some 0
  · by_cases h : b = 0
    · simp only [hl, h, if_true]
      exact List.dropLast_cons_of_ne_nil hne
    · simp only [hl, h, if_true, if_false]
      exact dropLast_modifyHead _ _
  · simp only [hl, if_false]

/-- On a nonempty property value the loop of `getStringProperty` collects
exactly the NUL-separated pieces. -/
theorem collected_eq_nulSeparated (bytes : Bytes) (h : bytes ≠ []) :
    collected bytes = nulSeparated bytes := by
  induction bytes with
  | nil => exact absurd rfl h
  | cons b rest ih =>
    cases rest with
    | nil => rw [collected_singleton, nulSeparated_singleton]
    | cons r rs => rw [collected_cons, nulSeparated_cons, ih (by simp)]

theorem length_modifyHead {α : Type} (f : α → α) (l : List α) :
    (l.modifyHead f).length = l.length := by
  cases l <;> rfl

theorem collected_length (bytes : Bytes) (h : bytes ≠ []) :
    (collected bytes).length = 1 + (bytes.take (bytes.length - 1)).count 0 := by
  induction bytes with
  | nil => exact absurd rfl h
  | cons b rest ih =>
    cases rest with
    | nil => rw [collected_singleton]; by_cases hb : b = 0 <;> simp [hb]
    | cons r rs =>
      rw [collected_cons]
      have ih' := ih (by simp)
      simp only [List.length_cons, Nat.add_sub_cancel] at ih' ⊢
      rw [List.take_succ_cons, List.count_cons]
      by_cases hb : b = 0
      · simp only [hb, if_true, List.length_cons, ih', beq_self_eq_true]
        omega
      · simp only [hb, if_false, length_modifyHead, ih']
        simp [hb]

theorem getStringProperty_of_reply (st : XState) (window : Window) (property : Atom)
    (bytes : Bytes) (hpos : bytes.length > 0)
    (hreply : XGetWindowProperty st window property =
      { status := Success, itemCount := bytes.length, data := bytes ++ [0] }) :
    getStringProperty st window property = collected bytes := by
  unfold getStringProperty collected
  simp only [hreply, if_true, hpos]


/-! ## The property store -/

theorem getStringProperty_congr (st st' : XState) (window : Window) (property : Atom)
    (h : st'.properties window property = st.properties window property) :
    getStringProperty st' window property = getStringProperty st window property := by
  unfold getStringProperty XGetWindowProperty
  rw [h]

theorem setStringProperty_properties (st : XState) (window : Window) (property : Atom)
    (value : Bytes) (w : Window) (a : Atom) :
    (setStringProperty st window property value).properties w a =
      if w = window ∧ a = property then
        { status := Success, itemCount := value.length, data := value ++ [0] }
      else st.properties w a := by
  simp [setStringProperty, XChangeProperty]

theorem setStringProperty_requests (st : XState) (window : Window) (property : Atom)
    (value : Bytes) :
    (setStringProperty st window property value).requests =
      st.requests ++ [{ window := window, property := property, type := Atom.xaString,
                        format := 8, data := value, nelements := value.length }] := by
  simp [setStringProperty, XChangeProperty]

theorem sentSince_setStringProperty (st : XState) (window : Window) (value : Bytes) :
    st.sentSince (setStringProperty st window WM_WINDOW_ROLE_ATOM value) =
      [roleRequest window value] := by
  simp [XState.sentSince, setStringProperty_requests, roleRequest]

theorem sentSince_self (st : XState) : st.sentSince st = [] := by
  simp [XState.sentSince]

/-! ## The classification loops -/

theorem isSkypeWindow_loop_iff (classNames : List Bytes) :
    isSkypeWindow.loop classNames = true ↔ SKYPE_WINDOW_CLASS ∈ classNames := by
  induction classNames with
  | nil => simp [isSkypeWindow.loop]
  | cons name rest ih =>
    unfold isSkypeWindow.loop
    by_cases h : name = SKYPE_WINDOW_CLASS
    · simp [h]
    · simp only [h, if_false, ih, List.mem_cons]
      constructor
      · exact Or.inr
      · rintro (c | c)
        · exact absurd c.symm h
        · exact c

theorem isSkypeWindow_iff (st : XState) (window : Window) :
    isSkypeWindow st window = true ↔
      SKYPE_WINDOW_CLASS ∈ getStringProperty st window WM_CLASS_ATOM := by
  unfold isSkypeWindow
  exact isSkypeWindow_loop_iff _

theorem typeLoop_cons (windowName : Bytes) (r : Bytes × Bytes) (rest : List (Bytes × Bytes)) :
    setWindowRole.typeLoop windowName (r :: rest) =
      if isSubstring r.1 windowName then some r.2
      else setWindowRole.typeLoop windowName rest := rfl

theorem nameLoop_cons (windowName : Bytes) (rest : List Bytes) :
    setWindowRole.nameLoop (windowName :: rest) =
      match setWindowRole.typeLoop windowName SKYPE_WINDOW_TYPES with
      | some role => some role
      | none => setWindowRole.nameLoop rest := rfl

theorem typeLoop_eq_none (windowName : Bytes) (types : List (Bytes × Bytes))
    (h : ∀ r ∈ types, isSubstring r.1 windowName = false) :
    setWindowRole.typeLoop windowName types = none := by
  induction types with
  | nil => rfl
  | cons r rest ih =>
    unfold setWindowRole.typeLoop
    rw [h r (List.mem_cons_self _ _)]
    simp only [Bool.false_eq_true, if_false]
    exact ih (fun q hq => h q (List.mem_cons_of_mem _ hq))

theorem typeLoop_append (windowName : Bytes) (before after : List (Bytes × Bytes))
    (h : ∀ r ∈ before, isSubstring r.1 windowName = false) :
    setWindowRole.typeLoop windowName (before ++ after) =
      setWindowRole.typeLoop windowName after := by
  induction before with
  | nil => rfl
  | cons r rest ih =>
    rw [List.cons_append, typeLoop_cons, h r (List.mem_cons_self _ _)]
    simp only [Bool.false_eq_true, if_false]
    exact ih (fun q hq => h q (List.mem_cons_of_mem _ hq))

theorem typeLoop_mem (windowName : Bytes) (types : List (Bytes × Bytes)) (role : Bytes)
    (h : setWindowRole.typeLoop windowName types = some role) :
    ∃ r ∈ types, r.2 = role ∧ isSubstring r.1 windowName = true := by
  induction types with
  | nil => simp [setWindowRole.typeLoop] at h
  | cons r rest ih =>
    unfold setWindowRole.typeLoop at h
    by_cases hr : isSubstring r.1 windowName = true
    · rw [if_pos hr] at h
      exact ⟨r, List.mem_cons_self _ _, Option.some.inj h, hr⟩
    · rw [if_neg hr] at h
      obtain ⟨q, hq, hq2⟩ := ih h
      exact ⟨q, List.mem_cons_of_mem _ hq, hq2⟩

theorem nameLoop_append (before after : List Bytes)
    (h : ∀ t ∈ before, setWindowRole.typeLoop t SKYPE_WINDOW_TYPES = none) :
    setWindowRole.nameLoop (before ++ after) = setWindowRole.nameLoop after := by
  induction before with
  | nil => rfl
  | cons t rest ih =>
    rw [List.cons_append, nameLoop_cons, h t (List.mem_cons_self _ _)]
    exact ih (fun q hq => h q (List.mem_cons_of_mem _ hq))

theorem nameLoop_cons_some (windowName : Bytes) (rest : List Bytes) (role : Bytes)
    (h : setWindowRole.typeLoop windowName SKYPE_WINDOW_TYPES = some role) :
    setWindowRole.nameLoop (windowName :: rest) = some role := by
  unfold setWindowRole.nameLoop
  rw [h]

theorem nameLoop_eq_none (windowNames : List Bytes)
    (h : ∀ t ∈ windowNames, setWindowRole.typeLoop t SKYPE_WINDOW_TYPES = none) :
    setWindowRole.nameLoop windowNames = none := by
  have := nameLoop_append windowNames [] h
  rwa [List.append_nil] at this

theorem nameLoop_mem (windowNames : List Bytes) (role : Bytes)
    (h : setWindowRole.nameLoop windowNames = some role) :
    ∃ r ∈ SKYPE_WINDOW_TYPES, r.2 = role := by
  induction windowNames with
  | nil => simp [setWindowRole.nameLoop] at h
  | cons t rest ih =>
    unfold setWindowRole.nameLoop at h
    cases ht : setWindowRole.typeLoop t SKYPE_WINDOW_TYPES with
    | none => rw [ht] at h; exact ih h
    | some q =>
      rw [ht] at h
      obtain ⟨r, hr, hr2, _⟩ := typeLoop_mem _ _ _ ht
      exact ⟨r, hr, hr2.trans (Option.some.inj h)⟩

/-! ## Facts of the table -/

/-- The table has `SKYPE_WINDOW_TYPE_COUNT` records, the bound of the inner
loop of `setWindowRole`. -/
theorem types_length : SKYPE_WINDOW_TYPES.length = SKYPE_WINDOW_TYPE_COUNT := rfl

theorem types_substring_ne_nil : ∀ r ∈ SKYPE_WINDOW_TYPES, r.1 ≠ [] := by decide

theorem types_role_collected :
    ∀ r ∈ SKYPE_WINDOW_TYPES, r.2.length > 0 ∧ collected r.2 = [r.2] := by decide

theorem types_roles_nodup : (SKYPE_WINDOW_TYPES.map Prod.snd).Nodup := by decide

/-- In the table, `isSubstring` decides whether the record's substring occurs
in the window name. -/
theorem types_isSubstring_iff {r : Bytes × Bytes} (hr : r ∈ SKYPE_WINDOW_TYPES)
    (windowName : Bytes) : isSubstring r.1 windowName = true ↔ r.1 <:+: windowName :=
  isSubstring_iff_isInfix (types_substring_ne_nil r hr) windowName

theorem types_isSubstring_false {r : Bytes × Bytes} (hr : r ∈ SKYPE_WINDOW_TYPES)
    {windowName : Bytes} (h : ¬ r.1 <:+: windowName) : isSubstring r.1 windowName = false := by
  rw [← Bool.not_eq_true, types_isSubstring_iff hr]
  exact h


/-! ## The cases of `setWindowRole` -/

theorem setWindowRole_of_not_skype (st : XState) (window : Window)
    (h : SKYPE_WINDOW_CLASS ∉ getStringProperty st window WM_CLASS_ATOM) :
    setWindowRole st window = st := by
  have hs : isSkypeWindow st window = false := by
    rw [← Bool.not_eq_true, isSkypeWindow_iff]
    exact h
  simp [setWindowRole, hs]

theorem setWindowRole_of_some (st : XState) (window : Window) (role : Bytes)
    (h : SKYPE_WINDOW_CLASS ∈ getStringProperty st window WM_CLASS_ATOM)
    (hrole : setWindowRole.nameLoop (getStringProperty st window WM_NAME_ATOM) = some role) :
    setWindowRole st window = setStringProperty st window WM_WINDOW_ROLE_ATOM role := by
  have hs : isSkypeWindow st window = true := (isSkypeWindow_iff st window).mpr h
  simp [setWindowRole, hs, hrole]

theorem setWindowRole_of_none (st : XState) (window : Window)
    (h : SKYPE_WINDOW_CLASS ∈ getStringProperty st window WM_CLASS_ATOM)
    (hrole : setWindowRole.nameLoop (getStringProperty st window WM_NAME_ATOM) = none) :
    setWindowRole st window =
      if st.verbose then { st with cerr := st.cerr ++ [window] } else st := by
  have hs : isSkypeWindow st window = true := (isSkypeWindow_iff st window).mpr h
  simp [setWindowRole, hs, hrole]

theorem getStringProperty_role_after_set (st : XState) (window : Window) (role : Bytes)
    (hpos : role.length > 0) :
    getStringProperty (setStringProperty st window WM_WINDOW_ROLE_ATOM role) window
      WM_WINDOW_ROLE_ATOM = collected role := by
  apply getStringProperty_of_reply _ _ _ _ hpos
  unfold XGetWindowProperty
  rw [setStringProperty_properties]
  simp

theorem writesRole_of_nameLoop (st : XState) (window : Window) (role : Bytes)
    (h : SKYPE_WINDOW_CLASS ∈ getStringProperty st window WM_CLASS_ATOM)
    (hrole : setWindowRole.nameLoop (getStringProperty st window WM_NAME_ATOM) = some role) :
    writesRole st window role := by
  obtain ⟨r, hr, rfl⟩ := nameLoop_mem _ _ hrole
  obtain ⟨hpos, hcol⟩ := types_role_collected r hr
  unfold writesRole
  rw [setWindowRole_of_some st window r.2 h hrole, sentSince_setStringProperty,
    getStringProperty_role_after_set st window r.2 hpos, hcol]
  exact ⟨rfl, rfl⟩

theorem roleRequest_injective (window : Window) (role role' : Bytes)
    (h : roleRequest window role = roleRequest window role') : role = role' := by
  have := congrArg ChangeRequest.data h
  exact this

theorem writesRole_unique (st : XState) (window : Window) (role role' : Bytes)
    (h : writesRole st window role) (h' : writesRole st window role') : role = role' := by
  have := h.1.symm.trans h'.1
  exact roleRequest_injective window role role' (List.singleton_inj.mp this)

/-- The inner loop stops at a record that all earlier records lead to. -/
theorem typeLoop_of_split (types before after : List (Bytes × Bytes)) (s role t : Bytes)
    (hne : ∀ r ∈ types, r.1 ≠ [])
    (hsplit : types = before ++ (s, role) :: after)
    (hbefore : ∀ r ∈ before, ¬ r.1 <:+: t) (hs : s <:+: t) :
    setWindowRole.typeLoop t types = some role := by
  subst hsplit
  rw [typeLoop_append, typeLoop_cons]
  · have : isSubstring (s, role).1 t = true :=
      (isSubstring_iff_isInfix (hne (s, role) (by simp)) t).mpr hs
    rw [if_pos this]
  · intro r hr
    rw [← Bool.not_eq_true, isSubstring_iff_isInfix (hne r (by simp [hr]))]
    exact hbefore r hr

theorem typeLoop_types_eq_none (t : Bytes)
    (h : ∀ r ∈ SKYPE_WINDOW_TYPES, ¬ r.1 <:+: t) :
    setWindowRole.typeLoop t SKYPE_WINDOW_TYPES = none :=
  typeLoop_eq_none t _ (fun r hr => types_isSubstring_false hr (h r hr))

/-- The nested loops return at the first record found in the first window
name that holds any record's substring. -/
theorem nameLoop_of_split (windowNames pre post : List Bytes) (t : Bytes)
    (before after : List (Bytes × Bytes)) (s role : Bytes)
    (hnames : windowNames = pre ++ t :: post)
    (hpre : ∀ u ∈ pre, ∀ r ∈ SKYPE_WINDOW_TYPES, ¬ r.1 <:+: u)
    (hsplit : SKYPE_WINDOW_TYPES = before ++ (s, role) :: after)
    (hbefore : ∀ r ∈ before, ¬ r.1 <:+: t) (hs : s <:+: t) :
    setWindowRole.nameLoop windowNames = some role := by
  subst hnames
  rw [nameLoop_append _ _ (fun u hu => typeLoop_types_eq_none u (hpre u hu))]
  exact nameLoop_cons_some _ _ _
    (typeLoop_of_split _ before after s role t types_substring_ne_nil hsplit hbefore hs)

theorem split_of_getElem? {α : Type} (l : List α) (i : Nat) (x : α) (h : l[i]? = some x) :
    ∃ pre post, l = pre ++ x :: post ∧ ∀ y ∈ pre, ∃ k, k < i ∧ l[k]? = some y := by
  induction l generalizing i with
  | nil => simp at h
  | cons a l ih =>
    cases i with
    | zero =>
      simp only [List.getElem?_cons_zero, Option.some.injEq] at h
      exact ⟨[], l, by simp [h], by simp⟩
    | succ i =>
      simp only [List.getElem?_cons_succ] at h
      obtain ⟨pre, post, hl, hpre⟩ := ih i h
      refine ⟨a :: pre, post, by simp [hl], ?_⟩
      intro y hy
      rcases List.mem_cons.mp hy with rfl | hy
      · exact ⟨0, Nat.succ_pos _, by simp⟩
      · obtain ⟨k, hk, hk2⟩ := hpre y hy
        exact ⟨k + 1, Nat.succ_lt_succ hk, by simpa using hk2⟩


theorem mem_take_of_getElem? {α : Type} (l : List α) (n k : Nat) (x : α) (hk : k < n)
    (h : l[k]? = some x) : x ∈ l.take n := by
  have e : (l.take n)[k]? = some x := by
    rw [List.getElem?_take_of_lt hk]
    exact h
  exact List.getElem?_mem e

/-! ## Claims -/

/-- C1: for a window whose class names hold "Skype", when the title at
position `i` is the first title to hold a substring of the table and the entry
at position `j` is the first entry whose substring that title holds,
`setWindowRole` writes that entry's role to the role property; so a single
title holding "Options" and "Profile for" and none of the five earlier
substrings gets "skype-options", and the title "Skype™ (Beta)" gets
"skype-main". -/
theorem setWindowRole_first_title_first_entry (st : XState) (window : Window)
    (hclass : SKYPE_WINDOW_CLASS ∈ getStringProperty st window WM_CLASS_ATOM) :
    (∀ (i j : Nat) (title s role : Bytes),
      (getStringProperty st window WM_NAME_ATOM)[i]? = some title →
      (∀ k < i, ∀ u, (getStringProperty st window WM_NAME_ATOM)[k]? = some u →
        ∀ r ∈ SKYPE_WINDOW_TYPES, ¬ r.1 <:+: u) →
      SKYPE_WINDOW_TYPES[j]? = some (s, role) →
      s <:+: title →
      (∀ k < j, ∀ r, SKYPE_WINDOW_TYPES[k]? = some r → ¬ r.1 <:+: title) →
      writesRole st window role) ∧
    (∀ title : Bytes, getStringProperty st window WM_NAME_ATOM = [title] →
      utf8 "Options" <:+: title → utf8 "Profile for" <:+: title →
      (∀ r ∈ SKYPE_WINDOW_TYPES.take 5, ¬ r.1 <:+: title) →
      writesRole st window (utf8 "skype-options")) ∧
    (getStringProperty st window WM_NAME_ATOM = [utf8 "Skype™ (Beta)"] →
      writesRole st window (utf8 "skype-main")) := by
  refine ⟨?_, ?_, ?_⟩
  · intro i j title s role hi hearlier hj hs hfirst
    obtain ⟨pre, post, hnames, hpre⟩ := split_of_getElem? _ i title hi
    obtain ⟨before, after, htypes, hbefore⟩ := split_of_getElem? _ j (s, role) hj
    apply writesRole_of_nameLoop st window role hclass
    refine nameLoop_of_split _ pre post title before after s role hnames ?_ htypes ?_ hs
    · intro u hu
      obtain ⟨k, hk, hku⟩ := hpre u hu
      exact hearlier k hk u hku
    · intro r hr
      obtain ⟨k, hk, hkr⟩ := hbefore r hr
      exact hfirst k hk r hkr
  · intro title hnames hopt _ hnone
    apply writesRole_of_nameLoop st window _ hclass
    exact nameLoop_of_split _ [] [] title (SKYPE_WINDOW_TYPES.take 5)
      (SKYPE_WINDOW_TYPES.drop 6) (utf8 "Options") (utf8 "skype-options") hnames
      (by simp) (by decide) hnone hopt
  · intro hnames
    apply writesRole_of_nameLoop st window _ hclass
    rw [hnames]
    decide

/-- C1, at Skype windows with the titles "random text", "My Profile for Bob",
with the title "Options - Profile for Bob" and with the title "Skype™ (Beta)". -/
theorem setWindowRole_first_title_first_entry_witness :
    writesRole (exampleState skypeClassProperty
        (utf8 "random text" ++ 0 :: utf8 "My Profile for Bob") false) 7
      (utf8 "skype-profile") ∧
    writesRole (exampleState skypeClassProperty (utf8 "Options - Profile for Bob") false) 7
      (utf8 "skype-options") ∧
    writesRole (exampleState skypeClassProperty (utf8 "Skype™ (Beta)") false) 7
      (utf8 "skype-main") :=
  ⟨(setWindowRole_first_title_first_entry
      (exampleState skypeClassProperty
        (utf8 "random text" ++ 0 :: utf8 "My Profile for Bob") false) 7
      (by decide)).1 1 6 (utf8 "My Profile for Bob") (utf8 "Profile for")
      (utf8 "skype-profile") (by decide)
      (fun k hk u hu =>
        (by decide : ∀ v ∈ [utf8 "random text"], ∀ r ∈ SKYPE_WINDOW_TYPES, ¬ r.1 <:+: v) u
          (mem_take_of_getElem? _ 1 k u hk hu))
      (by decide) ⟨utf8 "My ", utf8 " Bob", by decide⟩
      (fun k hk r hr =>
        (by decide : ∀ q ∈ SKYPE_WINDOW_TYPES.take 6, ¬ q.1 <:+: utf8 "My Profile for Bob") r
          (mem_take_of_getElem? _ 6 k r hk hr)),
   (setWindowRole_first_title_first_entry
      (exampleState skypeClassProperty (utf8 "Options - Profile for Bob") false) 7
      (by decide)).2.1 (utf8 "Options - Profile for Bob") (by decide)
      ⟨[], utf8 " - Profile for Bob", by decide⟩ ⟨utf8 "Options - ", utf8 " Bob", by decide⟩
      (by decide),
   (setWindowRole_first_title_first_entry
      (exampleState skypeClassProperty (utf8 "Skype™ (Beta)") false) 7
      (by decide)).2.2 (by decide)⟩

/-- C2: for a window whose class names do not hold "Skype", `setWindowRole`
changes nothing: no property write is sent, nothing is printed and every
property, the role among them, keeps its value, whatever the titles are; so
for class names {"Firefox"} and titles ["Options"]. -/
theorem setWindowRole_not_skype_noop (st : XState) (window : Window) :
    (SKYPE_WINDOW_CLASS ∉ getStringProperty st window WM_CLASS_ATOM →
      setWindowRole st window = st ∧
      st.sentSince (setWindowRole st window) = [] ∧
      (setWindowRole st window).properties window WM_WINDOW_ROLE_ATOM =
        st.properties window WM_WINDOW_ROLE_ATOM) ∧
    (getStringProperty st window WM_CLASS_ATOM = [utf8 "Firefox"] →
      getStringProperty st window WM_NAME_ATOM = [utf8 "Options"] →
      setWindowRole st window = st ∧ st.sentSince (setWindowRole st window) = []) := by
  have key : SKYPE_WINDOW_CLASS ∉ getStringProperty st window WM_CLASS_ATOM →
      setWindowRole st window = st ∧
      st.sentSince (setWindowRole st window) = [] ∧
      (setWindowRole st window).properties window WM_WINDOW_ROLE_ATOM =
        st.properties window WM_WINDOW_ROLE_ATOM := by
    intro h
    rw [setWindowRole_of_not_skype st window h]
    exact ⟨rfl, sentSince_self st, rfl⟩
  refine ⟨key, ?_⟩
  intro hclass _
  have h : SKYPE_WINDOW_CLASS ∉ getStringProperty st window WM_CLASS_ATOM := by
    rw [hclass]; decide
  exact ⟨(key h).1, (key h).2.1⟩

/-- C2, at a window with the class "Firefox" and the title "Options". -/
theorem setWindowRole_not_skype_noop_witness :
    (setWindowRole (exampleState (utf8 "Firefox") (utf8 "Options") true) 3).properties 3
        WM_WINDOW_ROLE_ATOM =
      (exampleState (utf8 "Firefox") (utf8 "Options") true).properties 3
        WM_WINDOW_ROLE_ATOM ∧
    (exampleState (utf8 "Firefox") (utf8 "Options") true).sentSince
      (setWindowRole (exampleState (utf8 "Firefox") (utf8 "Options") true) 3) = [] :=
  ⟨((setWindowRole_not_skype_noop
      (exampleState (utf8 "Firefox") (utf8 "Options") true) 3).1 (by decide)).2.2,
   ((setWindowRole_not_skype_noop
      (exampleState (utf8 "Firefox") (utf8 "Options") true) 3).2 (by decide) (by decide)).2⟩

/-- C3: for a window whose class names hold "Skype" and none of whose titles
holds a substring of the table (as when there is no title at all),
`setWindowRole` sends no property write and leaves every property as it was;
it prints one diagnostic line for the window when `verbose` is set and
nothing when it is not. -/
theorem setWindowRole_unrecognized (st : XState) (window : Window)
    (hclass : SKYPE_WINDOW_CLASS ∈ getStringProperty st window WM_CLASS_ATOM) :
    ((∀ t ∈ getStringProperty st window WM_NAME_ATOM,
        ∀ r ∈ SKYPE_WINDOW_TYPES, ¬ r.1 <:+: t) →
      (setWindowRole st window).requests = st.requests ∧
      st.sentSince (setWindowRole st window) = [] ∧
      (setWindowRole st window).properties = st.properties ∧
      (setWindowRole st window).verbose = st.verbose ∧
      (st.verbose = true → (setWindowRole st window).cerr = st.cerr ++ [window]) ∧
      (st.verbose = false → (setWindowRole st window).cerr = st.cerr)) ∧
    (getStringProperty st window WM_NAME_ATOM = [] →
      st.sentSince (setWindowRole st window) = [] ∧
      (setWindowRole st window).properties = st.properties ∧
      ((setWindowRole st window).cerr ≠ st.cerr ↔ st.verbose = true)) := by
  have key : setWindowRole.nameLoop (getStringProperty st window WM_NAME_ATOM) = none →
      (setWindowRole st window).requests = st.requests ∧
      st.sentSince (setWindowRole st window) = [] ∧
      (setWindowRole st window).properties = st.properties ∧
      (setWindowRole st window).verbose = st.verbose ∧
      (st.verbose = true → (setWindowRole st window).cerr = st.cerr ++ [window]) ∧
      (st.verbose = false → (setWindowRole st window).cerr = st.cerr) := by
    intro hnone
    rw [setWindowRole_of_none st window hclass hnone]
    cases hv : st.verbose <;> simp [XState.sentSince, hv]
  refine ⟨fun h => key (nameLoop_eq_none _ (fun t ht => typeLoop_types_eq_none t (h t ht))), ?_⟩
  intro hnames
  have hk := key (by rw [hnames]; rfl)
  refine ⟨hk.2.1, hk.2.2.1, ?_⟩
  cases hv : st.verbose
  · simp [hk.2.2.2.2.2 hv]
  · simp [hk.2.2.2.2.1 hv]

/-- C3, at a Skype window with the title "random text", verbose, and at one
without a title property, not verbose. -/
theorem setWindowRole_unrecognized_witness :
    (setWindowRole (exampleState skypeClassProperty (utf8 "random text") true) 5).cerr
      = [5] ∧
    (exampleState skypeClassProperty [] false).sentSince
      (setWindowRole (exampleState skypeClassProperty [] false) 5) = [] :=
  ⟨((setWindowRole_unrecognized (exampleState skypeClassProperty (utf8 "random text") true) 5
      (by decide)).1 (by decide)).2.2.2.2.1 rfl,
   ((setWindowRole_unrecognized (exampleState skypeClassProperty [] false) 5
      (by decide)).2 (by decide)).1⟩


/-- C4: the scan is title-major.  For a window whose class names hold
"Skype", with the titles `pre ++ t :: post` where no title of `pre` holds a
substring of the table, the role written is that of the first entry whose
substring `t` holds; so when the first title holds none and the second does,
the role of the second title's first entry is written, and when the first
title's first entry is `(s1, role1)` and the second title holds the substring
of an earlier entry `(s2, role2)`, it is `role1` that is written and not
`role2`. -/
theorem setWindowRole_title_major (st : XState) (window : Window)
    (hclass : SKYPE_WINDOW_CLASS ∈ getStringProperty st window WM_CLASS_ATOM) :
    (∀ (pre post : List Bytes) (t : Bytes) (before after : List (Bytes × Bytes))
        (s role : Bytes),
      getStringProperty st window WM_NAME_ATOM = pre ++ t :: post →
      (∀ u ∈ pre, ∀ r ∈ SKYPE_WINDOW_TYPES, ¬ r.1 <:+: u) →
      SKYPE_WINDOW_TYPES = before ++ (s, role) :: after →
      (∀ r ∈ before, ¬ r.1 <:+: t) → s <:+: t →
      writesRole st window role) ∧
    (∀ (t1 t2 : Bytes) (rest : List Bytes) (before after : List (Bytes × Bytes))
        (s role : Bytes),
      getStringProperty st window WM_NAME_ATOM = t1 :: t2 :: rest →
      (∀ r ∈ SKYPE_WINDOW_TYPES, ¬ r.1 <:+: t1) →
      SKYPE_WINDOW_TYPES = before ++ (s, role) :: after →
      (∀ r ∈ before, ¬ r.1 <:+: t2) → s <:+: t2 →
      writesRole st window role) ∧
    (∀ (t1 t2 : Bytes) (rest : List Bytes) (before after : List (Bytes × Bytes))
        (s1 role1 s2 role2 : Bytes),
      getStringProperty st window WM_NAME_ATOM = t1 :: t2 :: rest →
      SKYPE_WINDOW_TYPES = before ++ (s1, role1) :: after →
      (∀ r ∈ before, ¬ r.1 <:+: t1) → s1 <:+: t1 →
      (s2, role2) ∈ before → s2 <:+: t2 →
      writesRole st window role1 ∧ ¬ writesRole st window role2) := by
  have general : ∀ (pre post : List Bytes) (t : Bytes) (before after : List (Bytes × Bytes))
      (s role : Bytes),
      getStringProperty st window WM_NAME_ATOM = pre ++ t :: post →
      (∀ u ∈ pre, ∀ r ∈ SKYPE_WINDOW_TYPES, ¬ r.1 <:+: u) →
      SKYPE_WINDOW_TYPES = before ++ (s, role) :: after →
      (∀ r ∈ before, ¬ r.1 <:+: t) → s <:+: t →
      writesRole st window role := by
    intro pre post t before after s role hnames hpre htypes hbefore hs
    exact writesRole_of_nameLoop st window role hclass
      (nameLoop_of_split _ pre post t before after s role hnames hpre htypes hbefore hs)
  refine ⟨general, ?_, ?_⟩
  · intro t1 t2 rest before after s role hnames h1 htypes hbefore hs
    refine general [t1] rest t2 before after s role hnames ?_ htypes hbefore hs
    intro u hu
    rw [List.mem_singleton.mp hu]
    exact h1
  · intro t1 t2 rest before after s1 role1 s2 role2 hnames htypes hbefore hs1 hmem _
    have h1 := general [] (t2 :: rest) t1 before after s1 role1 hnames (by simp) htypes
      hbefore hs1
    refine ⟨h1, fun h2 => ?_⟩
    have heq : role1 = role2 := writesRole_unique st window role1 role2 h1 h2
    have hnodup := types_roles_nodup
    rw [htypes, List.map_append, List.map_cons, List.nodup_append] at hnodup
    refine hnodup.2.2 (List.mem_map.mpr ⟨(s2, role2), hmem, rfl⟩) ?_
    rw [← heq]
    exact List.mem_cons_self _ _

/-- C4, at a Skype window with the titles "random text", "My Options" and at
one with the titles "Profile for Bob", "Options". -/
theorem setWindowRole_title_major_witness :
    writesRole (exampleState skypeClassProperty
        (utf8 "random text" ++ 0 :: utf8 "My Options") false) 9 (utf8 "skype-options") ∧
    (writesRole (exampleState skypeClassProperty
        (utf8 "Profile for Bob" ++ 0 :: utf8 "Options") false) 9 (utf8 "skype-profile") ∧
     ¬ writesRole (exampleState skypeClassProperty
        (utf8 "Profile for Bob" ++ 0 :: utf8 "Options") false) 9 (utf8 "skype-options")) :=
  ⟨(setWindowRole_title_major (exampleState skypeClassProperty
        (utf8 "random text" ++ 0 :: utf8 "My Options") false) 9 (by decide)).2.1
      (utf8 "random text") (utf8 "My Options") [] (SKYPE_WINDOW_TYPES.take 5)
      (SKYPE_WINDOW_TYPES.drop 6) (utf8 "Options") (utf8 "skype-options")
      (by decide) (by decide) (by decide) (by decide) (by decide),
   (setWindowRole_title_major (exampleState skypeClassProperty
        (utf8 "Profile for Bob" ++ 0 :: utf8 "Options") false) 9 (by decide)).2.2
      (utf8 "Profile for Bob") (utf8 "Options") [] (SKYPE_WINDOW_TYPES.take 6)
      (SKYPE_WINDOW_TYPES.drop 7) (utf8 "Profile for") (utf8 "skype-profile")
      (utf8 "Options") (utf8 "skype-options")
      (by decide) (by decide) (by decide) (by decide) (by decide) (by decide)⟩

/-- C5: `isSkypeWindow` is true exactly when one of the window's class names
is, byte for byte, the string "Skype"; class names that only hold "Skype"
inside a longer string ("Skype2") or differ from it in case ("skype") give
false. -/
theorem isSkypeWindow_iff_exact_class (st : XState) (window : Window) :
    (isSkypeWindow st window = true ↔
      ∃ name ∈ getStringProperty st window WM_CLASS_ATOM, name = utf8 "Skype") ∧
    (getStringProperty st window WM_CLASS_ATOM = [utf8 "skype2", utf8 "Skype2"] →
      isSkypeWindow st window = false) ∧
    (getStringProperty st window WM_CLASS_ATOM = [utf8 "skype", utf8 "skype"] →
      isSkypeWindow st window = false) ∧
    ((∀ name ∈ getStringProperty st window WM_CLASS_ATOM,
        (utf8 "Skype" <:+: name ∧ name ≠ utf8 "Skype") ∨ name = utf8 "skype") →
      isSkypeWindow st window = false) := by
  have hiff : isSkypeWindow st window = true ↔
      ∃ name ∈ getStringProperty st window WM_CLASS_ATOM, name = utf8 "Skype" := by
    rw [isSkypeWindow_iff]
    constructor
    · exact fun h => ⟨_, h, rfl⟩
    · rintro ⟨name, h, rfl⟩
      exact h
  refine ⟨hiff, ?_, ?_, ?_⟩
  · intro h
    unfold isSkypeWindow
    rw [h]
    decide
  · intro h
    unfold isSkypeWindow
    rw [h]
    decide
  · intro h
    rw [← Bool.not_eq_true, hiff]
    rintro ⟨name, hmem, heq⟩
    rcases h name hmem with hsub | hcase
    · exact hsub.2 heq
    · rw [heq] at hcase
      exact absurd hcase (by decide)

/-- C5, at windows with the class properties "skype2\0Skype2\0" and
"skype\0skype\0". -/
theorem isSkypeWindow_iff_exact_class_witness :
    isSkypeWindow (exampleState (utf8 "skype2" ++ 0 :: (utf8 "Skype2" ++ [0])) [] false) 2
      = false ∧
    isSkypeWindow (exampleState (utf8 "skype" ++ 0 :: (utf8 "skype" ++ [0])) [] false) 2
      = false :=
  ⟨(isSkypeWindow_iff_exact_class
      (exampleState (utf8 "skype2" ++ 0 :: (utf8 "Skype2" ++ [0])) [] false) 2).2.1
      (by decide),
   (isSkypeWindow_iff_exact_class
      (exampleState (utf8 "skype" ++ 0 :: (utf8 "skype" ++ [0])) [] false) 2).2.2.1
      (by decide)⟩

/-- C6: `setWindowRole` is idempotent.  Invoked twice in a row on a window,
the second invocation sends the same property writes as the first (the same
one role, or none) and leaves the property store as the first left it. -/
theorem setWindowRole_idempotent (st : XState) (window : Window) :
    (setWindowRole (setWindowRole st window) window).properties =
      (setWindowRole st window).properties ∧
    (setWindowRole st window).sentSince (setWindowRole (setWindowRole st window) window) =
      st.sentSince (setWindowRole st window) := by
  by_cases hclass : SKYPE_WINDOW_CLASS ∈ getStringProperty st window WM_CLASS_ATOM
  · cases hloop : setWindowRole.nameLoop (getStringProperty st window WM_NAME_ATOM) with
    | none =>
      have h1 := setWindowRole_of_none st window hclass hloop
      have hprops : (setWindowRole st window).properties = st.properties := by
        rw [h1]; cases st.verbose <;> rfl
      have hreqs : (setWindowRole st window).requests = st.requests := by
        rw [h1]; cases st.verbose <;> rfl
      have hclass1 : SKYPE_WINDOW_CLASS ∈
          getStringProperty (setWindowRole st window) window WM_CLASS_ATOM := by
        rw [getStringProperty_congr st _ window WM_CLASS_ATOM (by rw [hprops])]
        exact hclass
      have hloop1 : setWindowRole.nameLoop
          (getStringProperty (setWindowRole st window) window WM_NAME_ATOM) = none := by
        rw [getStringProperty_congr st _ window WM_NAME_ATOM (by rw [hprops])]
        exact hloop
      have h2 := setWindowRole_of_none (setWindowRole st window) window hclass1 hloop1
      have hprops2 : (setWindowRole (setWindowRole st window) window).properties =
          (setWindowRole st window).properties := by
        rw [h2]; cases (setWindowRole st window).verbose <;> rfl
      have hreqs2 : (setWindowRole (setWindowRole st window) window).requests =
          (setWindowRole st window).requests := by
        rw [h2]; cases (setWindowRole st window).verbose <;> rfl
      refine ⟨hprops2, ?_⟩
      simp [XState.sentSince, hreqs2, hreqs]
    | some role =>
      have h1 := setWindowRole_of_some st window role hclass hloop
      have hclass1 : SKYPE_WINDOW_CLASS ∈
          getStringProperty (setWindowRole st window) window WM_CLASS_ATOM := by
        rw [getStringProperty_congr st _ window WM_CLASS_ATOM
          (by rw [h1, setStringProperty_properties]; simp [WM_CLASS_ATOM, WM_WINDOW_ROLE_ATOM])]
        exact hclass
      have hloop1 : setWindowRole.nameLoop
          (getStringProperty (setWindowRole st window) window WM_NAME_ATOM) = some role := by
        rw [getStringProperty_congr st _ window WM_NAME_ATOM
          (by rw [h1, setStringProperty_properties]; simp [WM_NAME_ATOM, WM_WINDOW_ROLE_ATOM])]
        exact hloop
      have h2 := setWindowRole_of_some (setWindowRole st window) window role hclass1 hloop1
      constructor
      · rw [h2]
        funext w a
        rw [setStringProperty_properties]
        by_cases hwa : w = window ∧ a = WM_WINDOW_ROLE_ATOM
        · rw [if_pos hwa, h1, setStringProperty_properties, if_pos hwa]
        · rw [if_neg hwa]
      · rw [h2, sentSince_setStringProperty, h1, sentSince_setStringProperty]
  · have h1 := setWindowRole_of_not_skype st window hclass
    rw [h1, h1]
    exact ⟨rfl, rfl⟩

/-- C7: an invocation of `setWindowRole` sends at most one property write;
the write, if any, is to the role property of the given window, in format 8
with type `XA_STRING`, and its value is one of the eight roles of the table;
every other property of every window keeps its value, and the role property
ends as that one write set it. -/
theorem setWindowRole_at_most_one_write (st : XState) (window : Window) :
    (setWindowRole st window).requests = st.requests ++ st.sentSince (setWindowRole st window) ∧
    (st.sentSince (setWindowRole st window)).length ≤ 1 ∧
    (∀ q ∈ st.sentSince (setWindowRole st window),
      q.window = window ∧ q.property = WM_WINDOW_ROLE_ATOM ∧
      q.data ∈ SKYPE_WINDOW_TYPES.map Prod.snd ∧ q = roleRequest window q.data ∧
      (setWindowRole st window).properties window WM_WINDOW_ROLE_ATOM =
        { status := Success, itemCount := q.data.length, data := q.data ++ [0] }) ∧
    (∀ (w : Window) (a : Atom), ¬ (w = window ∧ a = WM_WINDOW_ROLE_ATOM) →
      (setWindowRole st window).properties w a = st.properties w a) := by
  by_cases hclass : SKYPE_WINDOW_CLASS ∈ getStringProperty st window WM_CLASS_ATOM
  · cases hloop : setWindowRole.nameLoop (getStringProperty st window WM_NAME_ATOM) with
    | none =>
      rw [setWindowRole_of_none st window hclass hloop]
      cases st.verbose <;> simp [XState.sentSince]
    | some role =>
      rw [setWindowRole_of_some st window role hclass hloop, sentSince_setStringProperty]
      obtain ⟨r, hr, hr2⟩ := nameLoop_mem _ _ hloop
      refine ⟨?_, by simp, ?_, ?_⟩
      · rw [setStringProperty_requests]; rfl
      · intro q hq
        rw [List.mem_singleton.mp hq, setStringProperty_properties]
        refine ⟨rfl, rfl, ?_, rfl, by simp [roleRequest]⟩
        exact List.mem_map.mpr ⟨r, hr, hr2⟩
      · intro w a hwa
        rw [setStringProperty_properties, if_neg hwa]
  · rw [setWindowRole_of_not_skype st window hclass]
    simp [XState.sentSince]

/-- C7, at a Skype window with the title "Skype™ (Beta)", whose one write is
the role "skype-main". -/
theorem setWindowRole_at_most_one_write_witness :
    (roleRequest 4 (utf8 "skype-main")).data ∈ SKYPE_WINDOW_TYPES.map Prod.snd ∧
    (setWindowRole (exampleState skypeClassProperty (utf8 "Skype™ (Beta)") false) 4).properties
      6 WM_WINDOW_ROLE_ATOM =
      (exampleState skypeClassProperty (utf8 "Skype™ (Beta)") false).properties
        6 WM_WINDOW_ROLE_ATOM :=
  ⟨((setWindowRole_at_most_one_write
      (exampleState skypeClassProperty (utf8 "Skype™ (Beta)") false) 4).2.2.1
      (roleRequest 4 (utf8 "skype-main")) (by decide)).2.2.1,
   (setWindowRole_at_most_one_write
      (exampleState skypeClassProperty (utf8 "Skype™ (Beta)") false) 4).2.2.2
      6 WM_WINDOW_ROLE_ATOM (by decide)⟩


theorem getStringProperty_exampleState_class (wmClass wmName : Bytes) (verbose : Bool)
    (window : Window) (hpos : wmClass.length > 0) :
    getStringProperty (exampleState wmClass wmName verbose) window WM_CLASS_ATOM =
      collected wmClass :=
  getStringProperty_of_reply _ _ _ wmClass hpos rfl

theorem getStringProperty_exampleState_name (wmClass wmName : Bytes) (verbose : Bool)
    (window : Window) (hpos : wmName.length > 0) :
    getStringProperty (exampleState wmClass wmName verbose) window WM_NAME_ATOM =
      collected wmName :=
  getStringProperty_of_reply _ _ _ wmName hpos rfl

theorem types_substring_collected :
    ∀ r ∈ SKYPE_WINDOW_TYPES, r.1.length > 0 ∧ collected r.1 = [r.1] := by decide

theorem types_typeLoop_self :
    ∀ r ∈ SKYPE_WINDOW_TYPES, setWindowRole.typeLoop r.1 SKYPE_WINDOW_TYPES = some r.2 := by
  decide

theorem types_pairwise_not_substring :
    SKYPE_WINDOW_TYPES.Pairwise (fun ri rj => isSubstring ri.1 rj.1 = false) := by decide

/-- C8, as amended: `getStringProperty` reads the property's buffer as
NUL-terminated strings.  It returns no string when the query does not succeed
or the item count is 0; for a value of `n > 0` bytes whose item count is `n`
(a property of format 8), which Xlib hands over followed by one NUL, it
returns the pieces of the `n` bytes between their NUL bytes, in order, without
the empty piece after a final NUL, which are one more than the NUL bytes among
the first `n - 1` bytes; "skype\0Skype\0" gives "skype", "Skype". -/
theorem getStringProperty_nul_separated (st : XState) (window : Window) (property : Atom) :
    ((XGetWindowProperty st window property).status ≠ Success →
      getStringProperty st window property = []) ∧
    ((XGetWindowProperty st window property).itemCount = 0 →
      getStringProperty st window property = []) ∧
    (∀ bytes : Bytes, bytes.length > 0 →
      XGetWindowProperty st window property =
        { status := Success, itemCount := bytes.length, data := bytes ++ [0] } →
      getStringProperty st window property = nulSeparated bytes ∧
      (getStringProperty st window property).length =
        1 + (bytes.take (bytes.length - 1)).count 0) ∧
    (XGetWindowProperty st window property =
        { status := Success, itemCount := skypeClassProperty.length,
          data := skypeClassProperty ++ [0] } →
      getStringProperty st window property = [utf8 "skype", utf8 "Skype"]) := by
  refine ⟨?_, ?_, ?_, ?_⟩
  · intro h
    unfold getStringProperty
    simp only [h, if_false]
  · intro h
    unfold getStringProperty
    simp [h]
  · intro bytes hpos hreply
    have hne : bytes ≠ [] := List.length_pos.mp hpos
    rw [getStringProperty_of_reply st window property bytes hpos hreply]
    exact ⟨collected_eq_nulSeparated bytes hne, collected_length bytes hne⟩
  · intro hreply
    rw [getStringProperty_of_reply st window property skypeClassProperty (by decide) hreply]
    decide

/-- C8, at the class property "skype\0Skype\0" (12 bytes, one NUL among the
first 11) and at a property that is not set. -/
theorem getStringProperty_nul_separated_witness :
    (getStringProperty (exampleState skypeClassProperty [] false) 1 WM_CLASS_ATOM
        = nulSeparated skypeClassProperty ∧
      (getStringProperty (exampleState skypeClassProperty [] false) 1 WM_CLASS_ATOM).length
        = 1 + (skypeClassProperty.take (skypeClassProperty.length - 1)).count 0) ∧
    getStringProperty (exampleState skypeClassProperty [] false) 1 WM_NAME_ATOM = [] :=
  ⟨(getStringProperty_nul_separated (exampleState skypeClassProperty [] false) 1
      WM_CLASS_ATOM).2.2.1 skypeClassProperty (by decide) rfl,
   (getStringProperty_nul_separated (exampleState skypeClassProperty [] false) 1
      WM_NAME_ATOM).2.1 rfl⟩

/-- C8, where it fails as stated: `getStringProperty` never reads the format
of the reply, and the item count of a property of format 32 is not the number
of bytes of its buffer.  For the three items 0, 1, 2 the query succeeds with
item count 3 and a buffer of 24 bytes followed by a NUL; only the first two
bytes are examined, and three empty strings are returned, where the 24 bytes
split at their NUL bytes into 22 pieces. -/
theorem getStringProperty_item_count_not_bytes :
    (XGetWindowProperty (replyState threeLongsReply) 1 WM_CLASS_ATOM).status = Success ∧
    (XGetWindowProperty (replyState threeLongsReply) 1 WM_CLASS_ATOM).itemCount = 3 ∧
    (XGetWindowProperty (replyState threeLongsReply) 1 WM_CLASS_ATOM).data
      = threeLongs ++ [0] ∧
    threeLongs.length = 24 ∧
    getStringProperty (replyState threeLongsReply) 1 WM_CLASS_ATOM = [[], [], []] ∧
    (nulSeparated threeLongs).length = 22 ∧
    1 + (threeLongs.take (threeLongs.length - 1)).count 0 = 22 ∧
    getStringProperty (replyState threeLongsReply) 1 WM_CLASS_ATOM
      ≠ nulSeparated threeLongs := by
  decide

/-- Apart from an empty `str2`, `isSubstring` is containment. -/
theorem isSubstring_iff_containedIn (str1 str2 : Bytes) :
    isSubstring str1 str2 = true ↔ str2 ≠ [] ∧ containedIn str1 str2 := by
  rw [isSubstring_iff, containedIn_iff_isInfix]

/-- C10: no entry of the table is shadowed.  No substring of the table occurs
in the substring of a later entry, so for a window whose class names hold
"Skype" and whose one title is an entry's substring `setWindowRole` writes
that entry's role ("Skype™ 2.2 (Beta) for Linux" gets "skype-sign-in", not
"skype-main"), and each of the eight roles is written for some window. -/
theorem types_not_shadowed :
    (∀ (i j : Nat) (ri rj : Bytes × Bytes), i < j →
      SKYPE_WINDOW_TYPES[i]? = some ri → SKYPE_WINDOW_TYPES[j]? = some rj →
      ¬ ri.1 <:+: rj.1) ∧
    (∀ (st : XState) (window : Window),
      SKYPE_WINDOW_CLASS ∈ getStringProperty st window WM_CLASS_ATOM →
      ∀ r ∈ SKYPE_WINDOW_TYPES, getStringProperty st window WM_NAME_ATOM = [r.1] →
      writesRole st window r.2) ∧
    (∀ (st : XState) (window : Window),
      SKYPE_WINDOW_CLASS ∈ getStringProperty st window WM_CLASS_ATOM →
      getStringProperty st window WM_NAME_ATOM = [utf8 "Skype™ 2.2 (Beta) for Linux"] →
      writesRole st window (utf8 "skype-sign-in") ∧
      ¬ writesRole st window (utf8 "skype-main")) ∧
    (∀ r ∈ SKYPE_WINDOW_TYPES, ∃ (st : XState) (window : Window),
      writesRole st window r.2) := by
  have exact_title : ∀ (st : XState) (window : Window),
      SKYPE_WINDOW_CLASS ∈ getStringProperty st window WM_CLASS_ATOM →
      ∀ r ∈ SKYPE_WINDOW_TYPES, getStringProperty st window WM_NAME_ATOM = [r.1] →
      writesRole st window r.2 := by
    intro st window hclass r hr hnames
    apply writesRole_of_nameLoop st window r.2 hclass
    rw [hnames]
    exact nameLoop_cons_some _ _ _ (types_typeLoop_self r hr)
  refine ⟨?_, exact_title, ?_, ?_⟩
  · intro i j ri rj hij hi hj hinfix
    obtain ⟨hi', rfl⟩ := List.getElem?_eq_some.mp hi
    obtain ⟨hj', rfl⟩ := List.getElem?_eq_some.mp hj
    have hp := List.pairwise_iff_getElem.mp types_pairwise_not_substring i j hi' hj' hij
    have ht := (types_isSubstring_iff (List.getElem_mem hi') _).mpr hinfix
    rw [hp] at ht
    exact Bool.false_ne_true ht
  · intro st window hclass hnames
    have h := exact_title st window hclass
      (utf8 "Skype™ 2.2 (Beta) for Linux", utf8 "skype-sign-in") (by decide) hnames
    refine ⟨h, fun h2 => ?_⟩
    exact absurd (writesRole_unique st window _ _ h h2) (by decide)
  · intro r hr
    refine ⟨exampleState skypeClassProperty r.1 false, 0, ?_⟩
    obtain ⟨hpos, hcol⟩ := types_substring_collected r hr
    apply exact_title _ _ _ r hr
    · rw [getStringProperty_exampleState_name _ _ _ _ hpos, hcol]
    · rw [getStringProperty_exampleState_class _ _ _ _ (by decide)]
      decide

/-- C10, at the entries in positions 5 and 8 and at a Skype window with the
title "Skype™ 2.2 (Beta) for Linux". -/
theorem types_not_shadowed_witness :
    ¬ utf8 "Skype™ (Beta)" <:+: utf8 "Skype™ 2.2 (Beta) for Linux" ∧
    writesRole (exampleState skypeClassProperty (utf8 "Skype™ 2.2 (Beta) for Linux") false) 8
      (utf8 "skype-sign-in") :=
  ⟨types_not_shadowed.1 4 7 (utf8 "Skype™ (Beta)", utf8 "skype-main")
      (utf8 "Skype™ 2.2 (Beta) for Linux", utf8 "skype-sign-in")
      (by decide) (by decide) (by decide),
   (types_not_shadowed.2.2.1
      (exampleState skypeClassProperty (utf8 "Skype™ 2.2 (Beta) for Linux") false) 8
      (by decide) (by decide)).1⟩

end SkypeRole

